import Mathlib

/-!
Verification development for the Nevo demo repository.

The repository under scrutiny is the frontend of a voice-driven chat
application (audi-nevo-frontend-main) together with the documentation of
its backend framework.  The frontend receives frames over a WebSocket
bound to the session: raw binary frames carry PCM audio, text frames
carry JSON control or application messages.  We embed the message
dispatch of VoiceInteraction.tsx, the recording gate, the audio
scheduling and PCM decoding of queueAudioChunk, the upload helper
sendAudioBlob, and the volume helper getAverageVolume, and prove the
specified properties about them.  Definitions come first, theorems
follow.
-/

/-- A JSON value, as produced by a successful JSON.parse call.  Objects
are the parsed property maps (field name paired with value). -/
inductive Json where
  | null
  | boolean (b : Bool)
  | number (q : ℚ)
  | str (s : String)
  | array (xs : List Json)
  | obj (fields : List (String × Json))

/-- Reading jsonObj.type in VoiceInteraction.tsx: defined only when the
parsed value is an object whose type property is a string; a missing or
non-string property compares unequal to every string literal, which we
model as none. -/
def jsonTypeField : Json → Option String
  | Json.obj fields =>
      match fields.lookup "type" with
      | some (Json.str s) => some s
      | _ => none
  | _ => none

/-- The observable effect of the socket.onmessage handler in
VoiceInteraction.tsx on one received frame. -/
inductive ClientAction where
  | queueChunk (bytes : List ℕ)
  | streamEnd
  | forward (raw : String)
  | ignored
  | warned (raw : String)
deriving DecidableEq

/-- One datum received on the WebSocket: event.data is an ArrayBuffer
(binaryType is arraybuffer) or a text string. -/
inductive WsData where
  | binary (bytes : List ℕ)
  | text (s : String)

/-- The text branch of socket.onmessage in VoiceInteraction.tsx
(lines 185-198).  The parsed argument is the result of JSON.parse on
the raw text (none when parsing throws).  Reading the type property of
a parsed null throws, landing in the catch branch, hence the null case
warns as well.  A type equal to END_OF_STREAM invokes onStreamEnd
(which only logs); show_image forwards the raw event.data string via
setReceivedMessage; every other type falls through both branches. -/
def handleTextMessage (raw : String) (parsed : Option Json) : ClientAction :=
  match parsed with
  | none => ClientAction.warned raw
  | some Json.null => ClientAction.warned raw
  | some j =>
      match jsonTypeField j with
      | some t =>
          if t = "END_OF_STREAM" then ClientAction.streamEnd
          else if t = "show_image" then ClientAction.forward raw
          else ClientAction.ignored
      | none => ClientAction.ignored

/-- The whole socket.onmessage handler of VoiceInteraction.tsx
(lines 180-199): an ArrayBuffer datum is passed to queueAudioChunk
unconditionally; a text datum is parsed and dispatched on its type. -/
def handleMessage : WsData → Option Json → ClientAction
  | WsData.binary b, _ => ClientAction.queueChunk b
  | WsData.text s, p => handleTextMessage s p

/-- The terminator literal the backend documentation reserves for the
end of a dialog step. -/
def endOfDialogStepType : String := "END_OF_DIALOG_STEP"

/-- Modelled from the spec: the outbound-frame contract of the Streaming
Channel (spec section 6).  The server side that produces the frames is
not part of src; the contract says every outbound frame is either raw
binary audio or a UTF-8 JSON object guaranteed to contain a string
field type.  A received datum together with its JSON.parse result
satisfies the contract when it is binary, or is text whose parse is an
object whose type property is a string. -/
def validOutboundFrame : WsData → Option Json → Prop
  | WsData.binary _, _ => True
  | WsData.text _, p => ∃ fields t, p = some (Json.obj fields) ∧
      fields.lookup "type" = some (Json.str t)

/-- The dispatch of the text branch as a function of the type field and
the raw text alone, used to state that the handler decides solely on
the type discriminator. -/
def dispatchOnType (t raw : String) : ClientAction :=
  if t = "END_OF_STREAM" then ClientAction.streamEnd
  else if t = "show_image" then ClientAction.forward raw
  else ClientAction.ignored

/-- The recording gate of VoiceInteraction.tsx: the allowRecordingRef
and isRecording flags together with the numSourcesPlaying counter.  The
counter is an integer because the JavaScript decrement in
source.onended can in principle pass below zero. -/
structure ClientState where
  allowRecording : Bool
  isRecording : Bool
  numSourcesPlaying : ℤ
deriving DecidableEq

/-- The events that touch the recording gate: space key down and up
(handleKeyDown and handleKeyUp, lines 37-61), a source scheduled by
queueAudioChunk (line 144), a scheduled source finishing playback
(source.onended, lines 148-156), and the END_OF_STREAM control frame,
whose handler onStreamEnd only logs. -/
inductive ClientEvent where
  | keyDownSpace
  | keyUpSpace
  | chunkQueued
  | sourceEnded
  | streamEndFrame
deriving DecidableEq

/-- One event applied to the recording gate.  The Bool result records
whether the event submitted recorded audio to the server: ReactMic
fires onStop when record turns false, and onStop posts the blob via
sendAudioBlob. -/
def stepEvent (s : ClientState) : ClientEvent → ClientState × Bool
  | ClientEvent.keyDownSpace =>
      (if s.allowRecording then { s with isRecording := true } else s, false)
  | ClientEvent.keyUpSpace =>
      if s.isRecording && s.allowRecording then
        ({ s with allowRecording := false, isRecording := false }, true)
      else (s, false)
  | ClientEvent.chunkQueued =>
      ({ s with numSourcesPlaying := s.numSourcesPlaying + 1 }, false)
  | ClientEvent.sourceEnded =>
      ({ s with numSourcesPlaying := s.numSourcesPlaying - 1,
                allowRecording :=
                  if s.numSourcesPlaying - 1 = 0 then true
                  else s.allowRecording }, false)
  | ClientEvent.streamEndFrame => (s, false)

/-- A sequence of events applied to the recording gate, counting how
many audio submissions they caused. -/
def runEvents (s : ClientState) : List ClientEvent → ClientState × ℕ
  | [] => (s, 0)
  | e :: rest =>
      ((runEvents (stepEvent s e).1 rest).1,
       (if (stepEvent s e).2 then 1 else 0) + (runEvents (stepEvent s e).1 rest).2)

/-- The initial gate state of a freshly mounted component:
allowRecordingRef starts true, nothing records, nothing plays. -/
def initClientState : ClientState :=
  { allowRecording := true, isRecording := false, numSourcesPlaying := 0 }

/-- The duration in seconds of one PCM chunk as computed in
queueAudioChunk (lines 102-111): totalSamples is the byte length over
bytesPerSample = 2, and audioBuffer.duration is totalSamples over the
sample rate 24000. -/
def chunkDuration (pcmLen : ℕ) : ℚ := ((pcmLen : ℚ) / 2) / 24000

/-- The start-time update of queueAudioChunk (lines 138-142): the
scheduled start is the stored audioStartTimeRef, bumped up to the audio
context currentTime when it lags behind. -/
def chunkStart (audioStartTime currentTime : ℚ) : ℚ :=
  if audioStartTime < currentTime then currentTime else audioStartTime

/-- A sequence of queueAudioChunk calls, each given the audio context
currentTime observed at the call and the byte length of its chunk.
Empty chunks return early (line 100) and schedule nothing; every other
chunk starts at chunkStart and advances audioStartTimeRef by its
duration (line 143).  Returns the scheduled (start, duration) pairs. -/
def scheduleChunks (audioStartTime : ℚ) : List (ℚ × ℕ) → List (ℚ × ℚ)
  | [] => []
  | (now, len) :: rest =>
      if len = 0 then scheduleChunks audioStartTime rest
      else
        (chunkStart audioStartTime now, chunkDuration len) ::
          scheduleChunks (chunkStart audioStartTime now + chunkDuration len) rest

/-- Scheduled intervals chained after a given end time: each interval
starts no earlier than the previous end and has nonnegative duration,
so the intervals are pairwise non-overlapping and in order. -/
def wellScheduled : ℚ → List (ℚ × ℚ) → Prop
  | _, [] => True
  | e, (s, d) :: rest => e ≤ s ∧ 0 ≤ d ∧ wellScheduled (s + d) rest

/-- The JavaScript sign correction of queueAudioChunk (lines 120-122):
a 16-bit value at or above 0x8000 is shifted down by 0x10000. -/
def toSigned16 (v : ℕ) : ℤ := if v ≥ 0x8000 then (v : ℤ) - 0x10000 else (v : ℤ)

/-- One decoded sample of queueAudioChunk (lines 119-123): the byte at
the even index ORed with the following byte shifted left by eight,
sign-corrected and divided by 32768. -/
def decodeSample (b0 b1 : ℕ) : ℚ := ((toSigned16 (b0 ||| (b1 <<< 8)) : ℤ) : ℚ) / 32768

/-- The decoding loop of queueAudioChunk (lines 115-124): bytes taken
two at a time in order, one sample per byte pair. -/
def queueAudioChunkSamples : List ℕ → List ℚ
  | b0 :: b1 :: rest => decodeSample b0 b1 :: queueAudioChunkSamples rest
  | _ => []

/-- A JavaScript number outcome: a finite value, NaN, or an infinity,
enough to express unguarded division. -/
inductive JsNum where
  | real (q : ℚ)
  | nan
  | posInf
  | negInf
deriving DecidableEq

/-- IEEE-style division as JavaScript performs it on finite operands:
zero over zero is NaN, a nonzero value over zero is a signed infinity,
anything else divides exactly (we idealize rounding away). -/
def jsDiv (a b : ℚ) : JsNum :=
  if b = 0 then
    if a = 0 then JsNum.nan
    else if 0 < a then JsNum.posInf
    else JsNum.negInf
  else JsNum.real (a / b)

/-- getAverageVolume of helpers/audio.ts (lines 1-7): the for loop sums
the entries into values, which is divided by array.length with no guard
against an empty array. -/
def getAverageVolume (array : List ℕ) : JsNum :=
  jsDiv (array.foldl (fun (values : ℚ) (x : ℕ) => values + (x : ℚ)) 0) (array.length : ℚ)

/-- The axios response sendAudioBlob resolves with on success. -/
structure AxiosResponse where
  status : ℕ
  body : String
deriving DecidableEq

/-- The outcome of the axios.post call inside sendAudioBlob: the
request either yields a response or throws. -/
inductive PostOutcome where
  | ok (r : AxiosResponse)
  | err (e : String)
deriving DecidableEq

/-- How an async JavaScript function settles: the promise resolves with
a value or with undefined, or it rejects with an error. -/
inductive PromiseResult (α : Type) where
  | resolved (v : Option α)
  | rejected (e : String)
deriving DecidableEq

/-- sendAudioBlob of api/audioStream.ts (lines 4-20): posts the blob;
on success it resolves with the axios response; the catch block logs
the error and falls off the end of the function, so the promise
resolves with undefined and never rejects. -/
def sendAudioBlob (post : PostOutcome) : PromiseResult AxiosResponse :=
  match post with
  | PostOutcome.ok r => PromiseResult.resolved (some r)
  | PostOutcome.err _ => PromiseResult.resolved none

/-- Whether a settled promise surfaced a failure to its awaiter as a
rejection. -/
def isRejection : PromiseResult AxiosResponse → Bool
  | PromiseResult.rejected _ => true
  | PromiseResult.resolved _ => false

/-- The readyState of a browser WebSocket. -/
inductive ReadyState where
  | connecting
  | opened
  | closing
  | closed
deriving DecidableEq

/-- The unmount cleanup of the WebSocket effect in VoiceInteraction.tsx
(lines 213-217): close() is invoked only when readyState equals
WebSocket.OPEN, which moves the socket to the closing state; in every
other state the socket is left untouched. -/
def cleanupSocket (s : ReadyState) : ReadyState :=
  match s with
  | ReadyState.opened => ReadyState.closing
  | s => s

/-- Browser WebSocket semantics: a socket that is connecting or open
is, or is about to become, a live channel; only closing or closed
sockets are released. -/
def remainsLiveChannel : ReadyState → Bool
  | ReadyState.connecting => true
  | ReadyState.opened => true
  | ReadyState.closing => false
  | ReadyState.closed => false

/-- Modelled from the spec: an outbound frame of the server-side Step
Runner, which is not part of src (only the frontend is): raw binary
audio or a JSON envelope with a type discriminator and opaque payload
(spec section 3, OutboundFrame). -/
inductive Frame where
  | audio (bytes : List ℕ)
  | control (ftype : String) (payload : String)
deriving DecidableEq

/-- Modelled from the spec: the outcome of one dialog step as the Step
Runner sees it (spec section 4.5): on success the Agent produced a
stream of frames; on failure (Agent error or timeout) it produced
nothing usable. -/
inductive StepOutcome where
  | success (frames : List Frame)
  | failure
deriving DecidableEq

/-- Modelled from the spec: the Step Runner forwards the frames of one
accepted input and always appends the end-of-dialog-step terminator,
also when the step fails internally (spec sections 4.5 step 8 and 7,
failure handling). -/
def runStep : StepOutcome → List Frame
  | StepOutcome.success fs => fs ++ [Frame.control endOfDialogStepType ""]
  | StepOutcome.failure => [Frame.control endOfDialogStepType ""]

/-- Modelled from the spec: the Turn Gate serializes accepted inputs,
running exactly one step per accepted StepInput in FIFO order (spec
section 4.2), so a session transcript is the concatenation of its step
outputs. -/
def runSession (steps : List StepOutcome) : List Frame :=
  steps.flatMap runStep

/-- Recognizer of the step-terminator frame. -/
def isDialogStepTerminator : Frame → Bool
  | Frame.control t _ => t = endOfDialogStepType
  | _ => false

/-- Number of step terminators in a transcript. -/
def countTerminators (fs : List Frame) : ℕ := fs.countP isDialogStepTerminator

/-- An Agent output stream is reserved-free when it never emits the
step terminator itself: reserved type values belong to the protocol
(spec section 6). -/
def reservedFree : StepOutcome → Prop
  | StepOutcome.success fs => ∀ f ∈ fs, isDialogStepTerminator f = false
  | StepOutcome.failure => True

/-! Theorems. -/

/-- Low byte below 256 ORed with a value shifted left by eight combines
into the little-endian sum. -/
theorem lor_byte_pair (b0 b1 : ℕ) (h : b0 < 256) :
    b0 ||| (b1 <<< 8) = b0 + 256 * b1 := by
  have hmod : (b0 ||| (b1 <<< 8)) % 256 = b0 := by
    have h255 : (255 : ℕ) = 2 ^ 8 - 1 := by norm_num
    have h256 : (256 : ℕ) = 2 ^ 8 := by norm_num
    calc (b0 ||| (b1 <<< 8)) % 256
        = (b0 ||| (b1 <<< 8)) &&& 255 := by
          rw [h255, h256, Nat.and_pow_two_sub_one_eq_mod]
      _ = (b0 &&& 255) ||| ((b1 <<< 8) &&& 255) := Nat.and_distrib_right _ _ _
      _ = b0 ||| 0 := by
          rw [h255]
          rw [Nat.and_pow_two_sub_one_of_lt_two_pow (by norm_num at h256 ⊢; omega)]
          congr 1
          rw [Nat.and_pow_two_sub_one_eq_mod, Nat.shiftLeft_eq]
          simp
      _ = b0 := by simp
  have hdiv : (b0 ||| (b1 <<< 8)) / 256 = b1 := by
    have hsh : (b0 ||| (b1 <<< 8)) >>> 8 = b1 := by
      apply Nat.eq_of_testBit_eq
      intro j
      rw [Nat.testBit_shiftRight, Nat.testBit_or]
      have hb0 : b0.testBit (8 + j) = false := by
        apply Nat.testBit_lt_two_pow
        calc b0 < 256 := h
          _ = 2 ^ 8 := by norm_num
          _ ≤ 2 ^ (8 + j) := Nat.pow_le_pow_right (by norm_num) (by omega)
      rw [hb0, Nat.testBit_shiftLeft]
      simp
    rw [Nat.shiftRight_eq_div_pow] at hsh
    simpa using hsh
  have hx := Nat.div_add_mod (b0 ||| (b1 <<< 8)) 256
  omega

/-- Claim C1 (code_bug evidence): the client does not recognize the
documented step terminator.  A JSON frame whose type field is the
literal END_OF_DIALOG_STEP falls through both dispatch branches and is
silently ignored, while the literal END_OF_STREAM, which the documented
backend never sends, is the one that triggers the stream-end callback. -/
theorem c1_terminator_not_recognized :
    handleTextMessage "raw" (some (Json.obj [("type", Json.str endOfDialogStepType)]))
      = ClientAction.ignored ∧
    handleTextMessage "raw" (some (Json.obj [("type", Json.str "END_OF_STREAM")]))
      = ClientAction.streamEnd := by
  constructor <;> rfl

/-- Claim C4: every frame satisfying the outbound contract is one of
exactly two shapes, and the handler gives each its stated treatment: a
binary frame is always handed to queueAudioChunk, and a JSON frame is
dispatched purely on its string type field; the malformed-message catch
branch is never reached on contract-conforming frames. -/
theorem c4_two_frame_shapes (d : WsData) (p : Option Json)
    (h : validOutboundFrame d p) :
    (∀ b, d = WsData.binary b → handleMessage d p = ClientAction.queueChunk b) ∧
    (∀ s, d = WsData.text s → ∃ fields t,
        p = some (Json.obj fields) ∧ fields.lookup "type" = some (Json.str t) ∧
        handleMessage d p = dispatchOnType t s) ∧
    (∀ r, handleMessage d p ≠ ClientAction.warned r) := by
  cases d with
  | binary b =>
      refine ⟨?_, ?_, ?_⟩
      · intro b2 hb
        cases hb
        rfl
      · intro s hs
        cases hs
      · intro r hr
        simp only [handleMessage] at hr
        cases hr
  | text s =>
      obtain ⟨fields, t, hp, hl⟩ := h
      subst hp
      have hdisp : handleMessage (WsData.text s) (some (Json.obj fields))
          = dispatchOnType t s := by
        show handleTextMessage s (some (Json.obj fields)) = dispatchOnType t s
        simp only [handleTextMessage, jsonTypeField, hl, dispatchOnType]
      refine ⟨?_, ?_, ?_⟩
      · intro b hb
        cases hb
      · intro s2 hs
        cases hs
        exact ⟨fields, t, rfl, hl, hdisp⟩
      · intro r hr
        rw [hdisp] at hr
        unfold dispatchOnType at hr
        by_cases h1 : t = "END_OF_STREAM"
        · rw [if_pos h1] at hr
          cases hr
        · rw [if_neg h1] at hr
          by_cases h2 : t = "show_image"
          · rw [if_pos h2] at hr
            cases hr
          · rw [if_neg h2] at hr
            cases hr

/-- Witness for C4 at a concrete application frame. -/
theorem c4_two_frame_shapes_witness :
    handleMessage (WsData.text "m") (some (Json.obj [("type", Json.str "car_update")]))
      ≠ ClientAction.warned "m" :=
  (c4_two_frame_shapes (WsData.text "m")
      (some (Json.obj [("type", Json.str "car_update")]))
      ⟨[("type", Json.str "car_update")], "car_update", rfl, rfl⟩).2.2 "m"

/-- Claim C5 counterexample: a JSON frame whose type is neither of the
reserved terminator values is not forwarded to the application handler;
the dispatch silently ignores it instead of forwarding it. -/
theorem c5_counterexample :
    handleTextMessage "payload" (some (Json.obj [("type", Json.str "weather_update")]))
      = ClientAction.ignored ∧
    ClientAction.ignored ≠ ClientAction.forward "payload" := by
  exact ⟨rfl, by decide⟩

/-- Claim C5 amended: among non-terminator JSON frames only those of
type show_image are forwarded to the application handler, and those are
forwarded unmodified as the raw received text; frames with any other
non-reserved type are silently discarded. -/
theorem c5_forwarding (raw : String) (fields : List (String × Json)) (t : String)
    (hl : fields.lookup "type" = some (Json.str t))
    (hterm : t ≠ "END_OF_STREAM") :
    (t = "show_image" →
      handleTextMessage raw (some (Json.obj fields)) = ClientAction.forward raw) ∧
    (t ≠ "show_image" →
      handleTextMessage raw (some (Json.obj fields)) = ClientAction.ignored) := by
  have hdisp : handleTextMessage raw (some (Json.obj fields)) = dispatchOnType t raw := by
    simp only [handleTextMessage, jsonTypeField, hl, dispatchOnType]
  rw [hdisp]
  unfold dispatchOnType
  rw [if_neg hterm]
  constructor
  · intro ht
    rw [if_pos ht]
  · intro ht
    rw [if_neg ht]

/-- Witness for C5 at a concrete show_image frame. -/
theorem c5_forwarding_witness :
    handleTextMessage "m" (some (Json.obj [("type", Json.str "show_image")]))
      = ClientAction.forward "m" :=
  (c5_forwarding "m" [("type", Json.str "show_image")] "show_image" rfl
      (by decide)).1 rfl

/-- Claim C2 counterexample: immediately after one submission the gate
has allowRecording false, and a further press-and-release of the space
bar submits nothing: the client cannot submit again while the step is
in flight, contradicting the claim that submission is possible at every
point. -/
theorem c2_counterexample :
    (runEvents initClientState [ClientEvent.keyDownSpace, ClientEvent.keyUpSpace]).1.allowRecording
      = false ∧
    (runEvents (runEvents initClientState
        [ClientEvent.keyDownSpace, ClientEvent.keyUpSpace]).1
        [ClientEvent.keyDownSpace, ClientEvent.keyUpSpace]).2 = 0 := by
  exact ⟨rfl, rfl⟩

/-- Claim C2 amended: once allowRecording is false (as it is right
after a submission), no sequence of events that contains no
source-ended playback event can produce another submission or re-enable
recording: the client must wait for playback to finish before it can
submit again. -/
theorem c2_blocked_until_playback (evs : List ClientEvent) :
    ∀ s : ClientState, ClientEvent.sourceEnded ∉ evs → s.allowRecording = false →
      (runEvents s evs).2 = 0 ∧ (runEvents s evs).1.allowRecording = false := by
  induction evs with
  | nil =>
      intro s _ hallow
      exact ⟨rfl, hallow⟩
  | cons e rest ih =>
      intro s hev hallow
      have hne : e ≠ ClientEvent.sourceEnded := by
        intro h
        exact hev (by rw [h]; exact List.mem_cons_self _ _)
      have hrest : ClientEvent.sourceEnded ∉ rest := fun h =>
        hev (List.mem_cons_of_mem _ h)
      have hstep : (stepEvent s e).1.allowRecording = false ∧ (stepEvent s e).2 = false := by
        cases e with
        | keyDownSpace => simp [stepEvent, hallow]
        | keyUpSpace => simp [stepEvent, hallow]
        | chunkQueued => simp [stepEvent, hallow]
        | sourceEnded => exact absurd rfl hne
        | streamEndFrame => simp [stepEvent, hallow]
      obtain ⟨ha1, ha2⟩ := hstep
      obtain ⟨hr1, hr2⟩ := ih (stepEvent s e).1 hrest ha1
      refine ⟨?_, ?_⟩
      · simp only [runEvents, ha2, if_neg Bool.false_ne_true, hr1]
      · simp only [runEvents, hr2]

/-- Witness for C2 amended: a blocked gate stays blocked across a
press-and-release with no playback ending in between. -/
theorem c2_blocked_until_playback_witness :
    (runEvents { allowRecording := false, isRecording := false, numSourcesPlaying := 1 }
        [ClientEvent.keyDownSpace, ClientEvent.keyUpSpace]).2 = 0 :=
  (c2_blocked_until_playback [ClientEvent.keyDownSpace, ClientEvent.keyUpSpace]
      { allowRecording := false, isRecording := false, numSourcesPlaying := 1 }
      (by decide) rfl).1

/-- The audioStartTimeRef value never moves backwards when a chunk is
scheduled. -/
theorem chunkStart_le_left (st now : ℚ) : st ≤ chunkStart st now := by
  unfold chunkStart
  split
  · linarith
  · exact le_refl st

/-- A chunk never starts before the currentTime observed at its call. -/
theorem chunkStart_le_right (st now : ℚ) : now ≤ chunkStart st now := by
  unfold chunkStart
  split
  · exact le_refl now
  · linarith

/-- Chunk durations are nonnegative. -/
theorem chunkDuration_nonneg (len : ℕ) : 0 ≤ chunkDuration len := by
  unfold chunkDuration
  positivity

/-- Every interval of a well-scheduled list starts no earlier than the
initial end time. -/
theorem wellScheduled_start_le (l : List (ℚ × ℚ)) :
    ∀ e, wellScheduled e l → ∀ x ∈ l, e ≤ x.1 := by
  induction l with
  | nil =>
      intro e _ x hx
      cases hx
  | cons p rest ih =>
      obtain ⟨s, d⟩ := p
      intro e hw x hx
      obtain ⟨h1, h2, h3⟩ := hw
      rcases List.mem_cons.mp hx with h | h
      · rw [h]
        exact h1
      · exact le_trans (le_trans h1 (by linarith)) (ih (s + d) h3 x h)

/-- Well-scheduled intervals have pairwise nondecreasing start times. -/
theorem wellScheduled_pairwise (l : List (ℚ × ℚ)) :
    ∀ e, wellScheduled e l → l.Pairwise (fun a b => a.1 ≤ b.1) := by
  induction l with
  | nil =>
      intro e _
      exact List.Pairwise.nil
  | cons p rest ih =>
      obtain ⟨s, d⟩ := p
      intro e hw
      obtain ⟨h1, h2, h3⟩ := hw
      refine List.Pairwise.cons ?_ (ih (s + d) h3)
      intro b hb
      have := wellScheduled_start_le rest (s + d) h3 b hb
      show s ≤ b.1
      linarith

/-- The scheduling loop produces a well-scheduled list from any
starting state. -/
theorem scheduleChunks_wellScheduled (inputs : List (ℚ × ℕ)) :
    ∀ st, wellScheduled st (scheduleChunks st inputs) := by
  induction inputs with
  | nil =>
      intro st
      trivial
  | cons p rest ih =>
      obtain ⟨now, len⟩ := p
      intro st
      by_cases h : len = 0
      · simp only [scheduleChunks, if_pos h]
        exact ih st
      · simp only [scheduleChunks, if_neg h]
        exact ⟨chunkStart_le_left st now, chunkDuration_nonneg len,
          ih (chunkStart st now + chunkDuration len)⟩

/-- Claim C8: every scheduled chunk starts at the later of the context
currentTime and the scheduled end of the previous chunk; consequently
the scheduled intervals never overlap, follow arrival order, and are
gapless whenever a backlog exists (the previous end has not yet been
reached). -/
theorem c8_schedule (st : ℚ) (inputs : List (ℚ × ℕ)) :
    (∀ prevEnd now, chunkStart prevEnd now = max prevEnd now) ∧
    (∀ prevEnd now, now ≤ prevEnd → chunkStart prevEnd now = prevEnd) ∧
    wellScheduled st (scheduleChunks st inputs) ∧
    (scheduleChunks st inputs).Pairwise (fun a b => a.1 ≤ b.1) := by
  refine ⟨?_, ?_, scheduleChunks_wellScheduled inputs st,
    wellScheduled_pairwise (scheduleChunks st inputs) st
      (scheduleChunks_wellScheduled inputs st)⟩
  · intro p n
    unfold chunkStart
    rcases lt_or_ge p n with h | h
    · rw [if_pos h, max_eq_right h.le]
    · rw [if_neg (not_lt.mpr h), max_eq_left h]
  · intro p n hn
    unfold chunkStart
    rw [if_neg (not_lt.mpr hn)]

/-- Witness for C8: a backlogged chunk starts exactly at the previous
end, and a concrete two-chunk schedule is well formed. -/
theorem c8_schedule_witness :
    chunkStart 5 3 = 5 ∧ wellScheduled 2 (scheduleChunks 2 [(0, 4800), (3, 2)]) := by
  refine ⟨(c8_schedule 0 []).2.1 5 3 (by norm_num), (c8_schedule 2 [(0, 4800), (3, 2)]).2.2.1⟩

/-- The sign-corrected 16-bit value lies in the signed 16-bit range. -/
theorem toSigned16_bounds (v : ℕ) (hv : v < 65536) :
    -32768 ≤ toSigned16 v ∧ toSigned16 v ≤ 32767 := by
  unfold toSigned16
  split <;> omega

/-- A signed 16-bit value divided by 32768 lies in the half-open unit
interval. -/
theorem signed16_div_bounds (z : ℤ) (h1 : -32768 ≤ z) (h2 : z ≤ 32767) :
    -1 ≤ (z : ℚ) / 32768 ∧ (z : ℚ) / 32768 < 1 := by
  constructor
  · rw [le_div_iff₀ (by norm_num : (0 : ℚ) < 32768)]
    have : (-32768 : ℚ) ≤ (z : ℚ) := by exact_mod_cast h1
    linarith
  · rw [div_lt_one (by norm_num : (0 : ℚ) < 32768)]
    have : (z : ℚ) ≤ 32767 := by exact_mod_cast h2
    linarith

/-- Claim C9: on a byte array of even length 2n with byte values below
256, the decoding loop yields exactly n samples; sample i is the signed
little-endian 16-bit integer formed from bytes 2i and 2i+1 divided by
32768, and lies in the half-open interval from -1 inclusive to 1
exclusive. -/
theorem c9_decode (n : ℕ) :
    ∀ bytes : List ℕ, bytes.length = 2 * n → (∀ b ∈ bytes, b < 256) →
      (queueAudioChunkSamples bytes).length = n ∧
      ∀ i, i < n → ∃ b0 b1,
        bytes[2 * i]? = some b0 ∧ bytes[2 * i + 1]? = some b1 ∧
        (queueAudioChunkSamples bytes)[i]?
          = some (((toSigned16 (b0 + 256 * b1) : ℤ) : ℚ) / 32768) ∧
        -1 ≤ ((toSigned16 (b0 + 256 * b1) : ℤ) : ℚ) / 32768 ∧
        ((toSigned16 (b0 + 256 * b1) : ℤ) : ℚ) / 32768 < 1 := by
  induction n with
  | zero =>
      intro bytes hlen _
      have hnil : bytes = [] := List.length_eq_zero.mp (by omega)
      subst hnil
      exact ⟨rfl, fun i hi => absurd hi (by omega)⟩
  | succ n ih =>
      intro bytes hlen hb
      rcases bytes with _ | ⟨b0, rest1⟩
      · simp at hlen
      rcases rest1 with _ | ⟨b1, rest⟩
      · simp at hlen
        omega
      have hrest : rest.length = 2 * n := by
        simp at hlen
        omega
      have hb0 : b0 < 256 := hb b0 (by simp)
      have hb1 : b1 < 256 := hb b1 (by simp)
      have hbr : ∀ b ∈ rest, b < 256 := fun b hbm => hb b (by simp [hbm])
      obtain ⟨ihlen, ihel⟩ := ih rest hrest hbr
      constructor
      · simp only [queueAudioChunkSamples, List.length_cons, ihlen]
      · intro i hi
        cases i with
        | zero =>
            refine ⟨b0, b1, by simp, by simp, ?_, ?_, ?_⟩
            · show (decodeSample b0 b1 :: queueAudioChunkSamples rest)[0]? = _
              rw [List.getElem?_cons_zero]
              congr 1
              unfold decodeSample
              rw [lor_byte_pair b0 b1 hb0]
            · exact (signed16_div_bounds _ (toSigned16_bounds _ (by omega)).1
                (toSigned16_bounds _ (by omega)).2).1
            · exact (signed16_div_bounds _ (toSigned16_bounds _ (by omega)).1
                (toSigned16_bounds _ (by omega)).2).2
        | succ i =>
            have hi2 : i < n := by omega
            obtain ⟨b0p, b1p, h1, h2, h3, h4, h5⟩ := ihel i hi2
            refine ⟨b0p, b1p, ?_, ?_, ?_, h4, h5⟩
            · have e1 : 2 * (i + 1) = 2 * i + 1 + 1 := by ring
              rw [e1]
              rw [List.getElem?_cons_succ, List.getElem?_cons_succ]
              exact h1
            · have e2 : 2 * (i + 1) + 1 = 2 * i + 1 + 1 + 1 := by ring
              rw [e2]
              rw [List.getElem?_cons_succ, List.getElem?_cons_succ]
              exact h2
            · show (decodeSample b0 b1 :: queueAudioChunkSamples rest)[i + 1]? = _
              rw [List.getElem?_cons_succ]
              exact h3

/-- Witness for C9 on the two-byte array holding the most negative
sample. -/
theorem c9_decode_witness :
    (queueAudioChunkSamples [0, 128]).length = 1 :=
  (c9_decode 1 [0, 128] rfl (by decide)).1

/-- Folding addition of cast entries equals the cast list sum plus the
accumulator. -/
theorem foldl_add_cast (array : List ℕ) :
    ∀ a : ℚ, array.foldl (fun (values : ℚ) (x : ℕ) => values + (x : ℚ)) a
      = a + ((array.sum : ℕ) : ℚ) := by
  induction array with
  | nil =>
      intro a
      simp
  | cons x rest ih =>
      intro a
      rw [List.foldl_cons, ih (a + (x : ℚ)), List.sum_cons]
      push_cast
      ring

/-- Claim C10: getAverageVolume returns the arithmetic mean, the sum of
the entries divided by the array length, on every non-empty array, and
returns NaN on the empty array because the division by length is
unguarded (zero over zero). -/
theorem c10_average (array : List ℕ) (h : array ≠ []) :
    getAverageVolume array = JsNum.real (((array.sum : ℕ) : ℚ) / (array.length : ℚ)) ∧
    getAverageVolume [] = JsNum.nan := by
  refine ⟨?_, rfl⟩
  unfold getAverageVolume jsDiv
  have hlen : (array.length : ℚ) ≠ 0 := by
    have : array.length ≠ 0 := fun h0 => h (List.length_eq_zero.mp h0)
    exact_mod_cast this
  rw [if_neg hlen, foldl_add_cast array 0, zero_add]

/-- Witness for C10 on a concrete two-entry array. -/
theorem c10_average_witness :
    getAverageVolume [3, 5] = JsNum.real 4 := by
  have h := (c10_average [3, 5] (by decide)).1
  simp at h
  convert h using 2
  norm_num

/-- Claim C6 counterexample: a transport failure inside sendAudioBlob
is caught and the promise resolves with undefined; the submitter
observes no rejection and no error value. -/
theorem c6_counterexample :
    sendAudioBlob (PostOutcome.err "Network Error") = PromiseResult.resolved none ∧
    isRejection (sendAudioBlob (PostOutcome.err "Network Error")) = false := by
  exact ⟨rfl, rfl⟩

/-- Claim C6 amended: sendAudioBlob swallows transport failures: every
failing post resolves with undefined rather than rejecting or returning
an error value, while a successful post resolves with the response. -/
theorem c6_failure_swallowed (e : String) :
    sendAudioBlob (PostOutcome.err e) = PromiseResult.resolved none ∧
    isRejection (sendAudioBlob (PostOutcome.err e)) = false ∧
    ∀ r, sendAudioBlob (PostOutcome.ok r) = PromiseResult.resolved (some r) := by
  exact ⟨rfl, rfl, fun r => rfl⟩

/-- Claim C7 counterexample: a socket still in the CONNECTING state at
unmount is not closed by the cleanup, and remains a live channel that
will finish opening, so a remount can hold two concurrent channels for
the same session. -/
theorem c7_counterexample :
    cleanupSocket ReadyState.connecting = ReadyState.connecting ∧
    remainsLiveChannel (cleanupSocket ReadyState.connecting) = true := by
  exact ⟨rfl, rfl⟩

/-- Claim C7 amended: the unmount cleanup closes the socket only when
its readyState is OPEN; in every other state, including a socket still
CONNECTING, it is left untouched. -/
theorem c7_cleanup_only_open (s : ReadyState) :
    (s = ReadyState.opened → cleanupSocket s = ReadyState.closing) ∧
    (s ≠ ReadyState.opened → cleanupSocket s = s) := by
  cases s with
  | connecting => exact ⟨fun h => (nomatch h), fun _ => rfl⟩
  | opened => exact ⟨fun _ => rfl, fun h => absurd rfl h⟩
  | closing => exact ⟨fun h => (nomatch h), fun _ => rfl⟩
  | closed => exact ⟨fun h => (nomatch h), fun _ => rfl⟩

/-- Witness for C7 amended: the cleanup closes an open socket. -/
theorem c7_cleanup_only_open_witness :
    cleanupSocket ReadyState.opened = ReadyState.closing :=
  (c7_cleanup_only_open ReadyState.opened).1 rfl

/-- Claim C3: in the spec model of the Turn Gate and Step Runner, every
accepted StepInput gives rise to exactly one end-of-dialog-step
terminator, also when the step fails internally: the number of
terminators in the session transcript equals the number of accepted
inputs, provided the Agent streams never emit the reserved terminator
themselves. -/
theorem c3_terminator_count (steps : List StepOutcome)
    (h : ∀ o ∈ steps, reservedFree o) :
    countTerminators (runSession steps) = steps.length := by
  induction steps with
  | nil => rfl
  | cons o rest ih =>
      have ho : reservedFree o := h o (by simp)
      have hrest : ∀ o2 ∈ rest, reservedFree o2 := fun o2 h2 => h o2 (by simp [h2])
      have hstep : countTerminators (runStep o) = 1 := by
        cases o with
        | success fs =>
            unfold runStep countTerminators
            rw [List.countP_append]
            have hz : fs.countP isDialogStepTerminator = 0 :=
              List.countP_eq_zero.mpr (fun f hf => by simp [ho f hf])
            rw [hz]
            simp [isDialogStepTerminator]
        | failure =>
            simp [runStep, countTerminators, isDialogStepTerminator]
      show countTerminators (runStep o ++ rest.flatMap runStep) = rest.length + 1
      unfold countTerminators
      rw [List.countP_append]
      have ihr := ih hrest
      unfold countTerminators runSession at ihr
      unfold countTerminators at hstep
      omega

/-- Witness for C3 on a two-step session, one success and one failure. -/
theorem c3_terminator_count_witness :
    countTerminators (runSession [StepOutcome.success [Frame.audio [1, 2]],
      StepOutcome.failure]) = 2 := by
  have h : ∀ o ∈ [StepOutcome.success [Frame.audio [1, 2]], StepOutcome.failure],
      reservedFree o := by
    intro o ho
    rcases List.mem_cons.mp ho with h1 | h1
    · subst h1
      show ∀ f ∈ [Frame.audio [1, 2]], isDialogStepTerminator f = false
      decide
    · rcases List.mem_cons.mp h1 with h2 | h2
      · subst h2
        exact trivial
      · cases h2
  exact c3_terminator_count _ h
